import Mathlib

/-!
Shallow embedding of the page-transition overlay controller of
`src/js/preloader.js`.

The script runs on `DOMContentLoaded`: it looks up the overlay element
`.transition-preloader`, selects every anchor matching
`a[href]:not([target="_blank"])`, and attaches to each a click handler that,
for hrefs classified as internal, calls `e.preventDefault()`, adds the class
`active` to the overlay, and schedules `window.location.href = href` after
500 ms with `setTimeout`.  A `load` listener removes the `active` class.

JavaScript strings are modelled as lists of characters, `String.startsWith`
as a character-by-character test on those lists, `classList` as a list of
class names, and the page's event system as a small-step machine over an
explicit state (current time in ms, document, pending one-shot timers, and
the committed navigation target, `none` while the page is still live).
-/

/-- A JavaScript string, as its list of characters. -/
abbrev Str := List Char

/-- `String.prototype.startsWith`: `strStartsWith s p` is `true` when `p` is
an initial segment of `s`. -/
def strStartsWith : Str → Str → Bool
  | _, [] => true
  | [], _ :: _ => false
  | c :: s, p :: ps => c == p && strStartsWith s ps

def slashStr : Str := ['/']

def dotSlashStr : Str := ['.', '/']

def dotDotSlashStr : Str := ['.', '.', '/']

def httpStr : Str := ['h', 't', 't', 'p']

def activeStr : Str := ['a', 'c', 't', 'i', 'v', 'e']

def blankStr : Str := ['_', 'b', 'l', 'a', 'n', 'k']

/-- The internal-link classifier of preloader.js line 10:
`href.startsWith('/') || href.startsWith('./') || href.startsWith('../')
 || !href.startsWith('http')`. -/
def isInternal (h : Str) : Bool :=
  strStartsWith h slashStr || strStartsWith h dotSlashStr ||
    strStartsWith h dotDotSlashStr || !strStartsWith h httpStr

/-- The classifier as the spec words it in §9: internal exactly when the href
does not begin with `http`.  Kept separate from `isInternal`, which is the
source's four-clause rule, so the two can be compared. -/
def specIsInternal (h : Str) : Bool :=
  !strStartsWith h httpStr

/-- `DOMTokenList.add`: appends the token unless it is already present. -/
def classListAdd (cs : List Str) (c : Str) : List Str :=
  if c ∈ cs then cs else cs ++ [c]

/-- `DOMTokenList.remove`: removes every occurrence of the token. -/
def classListRemove (cs : List Str) (c : Str) : List Str :=
  cs.filter (fun x => !(x == c))

/-- An anchor element: its `href` and `target` attributes (`none` = absent). -/
structure Anchor where
  href : Option Str
  target : Option Str
deriving DecidableEq

/-- A pending one-shot timer from `setTimeout`: the absolute time (ms) at
which it becomes due and the href captured by its callback. -/
structure Timer where
  fireAt : Nat
  navHref : Str
deriving DecidableEq

/-- The parts of the document the controller touches: the class list of the
`.transition-preloader` overlay (`none` when the element is absent from the
page) and the anchor elements, identified by their index. -/
structure Document where
  overlay : Option (List Str)
  anchors : List Anchor
deriving DecidableEq

/-- State of the controller's event system on a single page. `location` is
`none` while the page is live and `some h` once `window.location.href = h`
has committed (after which the page context is being replaced, so no
further handler runs in it). -/
structure Sys where
  now : Nat
  doc : Document
  attached : List Nat
  timers : List Timer
  location : Option Str
deriving DecidableEq

/-- Errors a handler can raise: `missingElement` is the TypeError from
dereferencing a `null` overlay (`querySelector` found nothing);
`nullHref` is the TypeError from calling `.startsWith` on the `null`
returned by `getAttribute('href')` when the attribute is gone. -/
inductive JsError where
  | missingElement
  | nullHref
deriving DecidableEq

/-- The CSS selector `a[href]:not([target="_blank"])`: the anchor carries an
`href` attribute and its `target` attribute is not exactly `_blank`. -/
def selectsLink (a : Anchor) : Bool :=
  a.href.isSome && !(a.target == some blankStr)

/-- `document.querySelectorAll('a[href]:not([target="_blank"])')` at
initialization time: the indices of the anchors the selector matches.
Only these receive the click handler. -/
def initAttached (l : List Anchor) : List Nat :=
  (List.range l.length).filter (fun i =>
    match l[i]? with
    | some a => selectsLink a
    | none => false)

/-- The state right after the `DOMContentLoaded` callback has run on a fresh
page: no pending timer, page live, handlers attached per the selector. -/
def initSys (doc : Document) : Sys :=
  { now := 0, doc := doc, attached := initAttached doc.anchors,
    timers := [], location := none }

/-- The click handler of preloader.js lines 7–18, run for the link element at
index `i` against the current state.  It reads `getAttribute('href')` at
click time; for an internal href it calls `preventDefault`, adds `active` to
the overlay's class list, and schedules a one-shot timer for `now + 500` ms
whose callback assigns that same href to `window.location.href`.  The
returned `Bool` records whether `preventDefault` was invoked. -/
def clickHandler (s : Sys) (i : Nat) : Except JsError (Sys × Bool) :=
  match (s.doc.anchors[i]?).bind Anchor.href with
  | none => .error .nullHref
  | some h =>
    if isInternal h then
      match s.doc.overlay with
      | none => .error .missingElement
      | some cls =>
        .ok ({ s with
                doc := { s.doc with overlay := some (classListAdd cls activeStr) },
                timers := s.timers ++ [{ fireAt := s.now + 500, navHref := h }] },
              true)
    else
      .ok (s, false)

/-- The `load` handler of preloader.js lines 22–24: removes `active` from the
overlay's class list, unconditionally. -/
def loadHandler (s : Sys) : Except JsError Sys :=
  match s.doc.overlay with
  | none => .error .missingElement
  | some cls =>
    .ok { s with doc := { s.doc with overlay := some (classListRemove cls activeStr) } }

/-- Events the page can observe: a click on anchor `i`, the window `load`
event, time advancing by `d` ms, the `j`-th pending timer's callback
attempting to run, and the environment rewriting anchor `i`'s `href`
attribute (the controller itself never does this). -/
inductive Event where
  | click (i : Nat)
  | load
  | tick (d : Nat)
  | timerFire (j : Nat)
  | setHref (i : Nat) (h : Str)
deriving DecidableEq

/-- Rewrite the `href` attribute of the anchor at index `i`. -/
def setAnchorHref : List Anchor → Nat → Str → List Anchor
  | [], _, _ => []
  | a :: l, 0, h => { a with href := some h } :: l
  | a :: l, n + 1, h => a :: setAnchorHref l n h

/-- One step of the page's event system.  Once `location` is committed the
page context is being torn down and no handler observes anything further.
A click on an anchor the selector did not match runs no controller code.
A timer's callback runs only once its due time has been reached; when it
runs it assigns `window.location.href`, committing navigation. -/
def step (s : Sys) (e : Event) : Except JsError Sys :=
  if s.location.isSome then .ok s
  else
    match e with
    | .click i =>
      if i ∈ s.attached then
        match clickHandler s i with
        | .ok p => .ok p.1
        | .error err => .error err
      else .ok s
    | .load => loadHandler s
    | .tick d => .ok { s with now := s.now + d }
    | .timerFire j =>
      match s.timers[j]? with
      | some t =>
        if t.fireAt ≤ s.now then .ok { s with location := some t.navHref }
        else .ok s
      | none => .ok s
    | .setHref i h =>
      .ok { s with doc := { s.doc with anchors := setAnchorHref s.doc.anchors i h } }

/-- Run a list of events in order, stopping at the first raised error. -/
def run (s : Sys) : List Event → Except JsError Sys
  | [] => .ok s
  | e :: es =>
    match step s e with
    | .ok s1 => run s1 es
    | .error err => .error err

/-- The overlay currently carries the `active` marker class. -/
def markerOn (s : Sys) : Prop :=
  activeStr ∈ s.doc.overlay.getD []

instance (s : Sys) : Decidable (markerOn s) := by
  unfold markerOn; infer_instance

/-- The click event `e` is a qualifying click in state `s`: a click on an
attached anchor whose click-time href exists and is classified internal. -/
def isQualifyingClick (s : Sys) (e : Event) : Prop :=
  ∃ i h, e = Event.click i ∧ i ∈ s.attached ∧
    (s.doc.anchors[i]?).bind Anchor.href = some h ∧ isInternal h = true

/-- A concrete one-anchor page used to evaluate the theorems on closed
inputs: overlay present with no classes, one anchor with href `/`. -/
def oneSlashDoc : Document :=
  { overlay := some [],
    anchors := [{ href := some ['/'], target := none }] }

/-! ## Helper lemmas -/

theorem strStartsWith_nil_cons (p : Char) (ps : Str) :
    strStartsWith [] (p :: ps) = false := rfl

theorem strStartsWith_cons (c : Char) (s : Str) (p : Char) (ps : Str) :
    strStartsWith (c :: s) (p :: ps) = ((c == p) && strStartsWith s ps) := rfl

/-- The four-clause rule of line 10 computes the same Boolean as its own last
clause: each of the first three prefixes excludes the prefix `http`. -/
theorem isInternal_eq_spec (h : Str) : isInternal h = specIsInternal h := by
  cases h with
  | nil => rfl
  | cons c cs =>
    by_cases hc : c = 'h'
    · subst hc
      simp [isInternal, specIsInternal, slashStr, dotSlashStr, dotDotSlashStr,
        httpStr, strStartsWith_cons]
    · have hbeq : (c == 'h') = false := by
        exact beq_eq_false_iff_ne.mpr hc
      simp [isInternal, specIsInternal, slashStr, dotSlashStr, dotDotSlashStr,
        httpStr, strStartsWith_cons, hbeq]

theorem mem_classListAdd_self (cs : List Str) (c : Str) :
    c ∈ classListAdd cs c := by
  unfold classListAdd
  by_cases h : c ∈ cs
  · simp [h]
  · simp [h]

theorem mem_classListAdd_of_mem (cs : List Str) (c x : Str) (hx : x ∈ cs) :
    x ∈ classListAdd cs c := by
  unfold classListAdd
  by_cases h : c ∈ cs
  · simpa [h]
  · simp [h, hx]

theorem mem_classListAdd_iff (cs : List Str) (c x : Str) (hne : x ≠ c) :
    x ∈ classListAdd cs c ↔ x ∈ cs := by
  unfold classListAdd
  by_cases h : c ∈ cs
  · simp [h]
  · simp [h, hne]

theorem not_mem_classListRemove (cs : List Str) (c : Str) :
    c ∉ classListRemove cs c := by
  unfold classListRemove
  intro hmem
  have := List.of_mem_filter hmem
  simp at this

theorem mem_classListRemove_iff (cs : List Str) (c x : Str) (hne : x ≠ c) :
    x ∈ classListRemove cs c ↔ x ∈ cs := by
  unfold classListRemove
  constructor
  · intro hmem
    exact List.mem_of_mem_filter hmem
  · intro hmem
    refine List.mem_filter.mpr ⟨hmem, ?_⟩
    simp [hne]

theorem mem_of_mem_classListRemove (cs : List Str) (c x : Str)
    (hx : x ∈ classListRemove cs c) : x ∈ cs :=
  List.mem_of_mem_filter hx

theorem clickHandler_internal (s : Sys) (i : Nat) (h : Str) (cls : List Str)
    (hhref : (s.doc.anchors[i]?).bind Anchor.href = some h)
    (hint : isInternal h = true) (hov : s.doc.overlay = some cls) :
    clickHandler s i = .ok
      ({ s with
          doc := { s.doc with overlay := some (classListAdd cls activeStr) },
          timers := s.timers ++ [{ fireAt := s.now + 500, navHref := h }] },
        true) := by
  unfold clickHandler
  rw [hhref]
  simp [hint, hov]

theorem clickHandler_external (s : Sys) (i : Nat) (h : Str)
    (hhref : (s.doc.anchors[i]?).bind Anchor.href = some h)
    (hint : isInternal h = false) :
    clickHandler s i = .ok (s, false) := by
  unfold clickHandler
  rw [hhref]
  simp [hint]

theorem clickHandler_missing (s : Sys) (i : Nat) (h : Str)
    (hhref : (s.doc.anchors[i]?).bind Anchor.href = some h)
    (hint : isInternal h = true) (hov : s.doc.overlay = none) :
    clickHandler s i = .error .missingElement := by
  unfold clickHandler
  rw [hhref]
  simp [hint, hov]

theorem loadHandler_ok (s : Sys) (cls : List Str) (hov : s.doc.overlay = some cls) :
    loadHandler s = .ok
      { s with doc := { s.doc with overlay := some (classListRemove cls activeStr) } } := by
  unfold loadHandler
  rw [hov]

theorem loadHandler_missing (s : Sys) (hov : s.doc.overlay = none) :
    loadHandler s = .error .missingElement := by
  unfold loadHandler
  rw [hov]

theorem step_frozen (s : Sys) (e : Event) (hl : s.location.isSome = true) :
    step s e = .ok s := by
  unfold step
  simp [hl]

theorem step_click_not_attached (s : Sys) (i : Nat) (hl : s.location = none)
    (hna : i ∉ s.attached) :
    step s (.click i) = .ok s := by
  unfold step
  simp [hl, hna]

theorem step_click_attached (s : Sys) (i : Nat) (hl : s.location = none)
    (ha : i ∈ s.attached) :
    step s (.click i) =
      match clickHandler s i with
      | .ok p => .ok p.1
      | .error err => .error err := by
  unfold step
  simp [hl, ha]

theorem step_load (s : Sys) (hl : s.location = none) :
    step s .load = loadHandler s := by
  unfold step
  simp [hl]

theorem step_tick (s : Sys) (d : Nat) (hl : s.location = none) :
    step s (.tick d) = .ok { s with now := s.now + d } := by
  unfold step
  simp [hl]

theorem step_timerFire_due (s : Sys) (j : Nat) (t : Timer) (hl : s.location = none)
    (ht : s.timers[j]? = some t) (hdue : t.fireAt ≤ s.now) :
    step s (.timerFire j) = .ok { s with location := some t.navHref } := by
  unfold step
  simp [hl, ht, hdue]

theorem step_timerFire_early (s : Sys) (j : Nat) (t : Timer) (hl : s.location = none)
    (ht : s.timers[j]? = some t) (hdue : ¬ t.fireAt ≤ s.now) :
    step s (.timerFire j) = .ok s := by
  unfold step
  simp [hl, ht, hdue]

theorem step_setHref (s : Sys) (i : Nat) (h : Str) (hl : s.location = none) :
    step s (.setHref i h) =
      .ok { s with doc := { s.doc with anchors := setAnchorHref s.doc.anchors i h } } := by
  unfold step
  simp [hl]

theorem clickHandler_noHref (s : Sys) (i : Nat)
    (hhref : (s.doc.anchors[i]?).bind Anchor.href = none) :
    clickHandler s i = .error .nullHref := by
  unfold clickHandler
  rw [hhref]

theorem step_timerFire_none (s : Sys) (j : Nat) (hl : s.location = none)
    (ht : s.timers[j]? = none) :
    step s (.timerFire j) = .ok s := by
  unfold step
  simp [hl, ht]

theorem run_frozen (s : Sys) (tr : List Event) (hl : s.location.isSome = true) :
    run s tr = .ok s := by
  induction tr with
  | nil => rfl
  | cons e es ih =>
    unfold run
    rw [step_frozen s e hl]
    exact ih

theorem run_location_none (s s1 : Sys) (tr : List Event)
    (hrun : run s tr = .ok s1) (hl1 : s1.location = none) :
    s.location = none := by
  by_cases hl : s.location.isSome = true
  · rw [run_frozen s tr hl] at hrun
    injection hrun with h
    subst h
    rw [hl1] at hl
    simp at hl
  · exact Option.not_isSome_iff_eq_none.mp hl

theorem marker_set_only_by_click (s s1 : Sys) (e : Event)
    (hstep : step s e = .ok s1) (h0 : ¬ markerOn s) (h1 : markerOn s1) :
    s.location = none ∧ isQualifyingClick s e := by
  by_cases hls : s.location.isSome = true
  · rw [step_frozen s e hls] at hstep
    injection hstep with h
    subst h
    exact absurd h1 h0
  · have hl : s.location = none := Option.not_isSome_iff_eq_none.mp hls
    refine ⟨hl, ?_⟩
    cases e with
    | click i =>
      by_cases hmem : i ∈ s.attached
      · rw [step_click_attached s i hl hmem] at hstep
        cases hhr : (s.doc.anchors[i]?).bind Anchor.href with
        | none =>
          rw [clickHandler_noHref s i hhr] at hstep
          simp at hstep
        | some hh =>
          by_cases hint : isInternal hh = true
          · cases hov : s.doc.overlay with
            | none =>
              rw [clickHandler_missing s i hh hhr hint hov] at hstep
              simp at hstep
            | some cls =>
              exact ⟨i, hh, rfl, hmem, hhr, hint⟩
          · have hint2 : isInternal hh = false := by
              simp at hint
              exact hint
            rw [clickHandler_external s i hh hhr hint2] at hstep
            simp at hstep
            subst hstep
            exact absurd h1 h0
      · rw [step_click_not_attached s i hl hmem] at hstep
        injection hstep with h
        subst h
        exact absurd h1 h0
    | load =>
      rw [step_load s hl] at hstep
      cases hov : s.doc.overlay with
      | none =>
        rw [loadHandler_missing s hov] at hstep
        simp at hstep
      | some cls =>
        rw [loadHandler_ok s cls hov] at hstep
        injection hstep with h
        subst h
        exact absurd h1 (not_mem_classListRemove cls activeStr)
    | tick d =>
      rw [step_tick s d hl] at hstep
      injection hstep with h
      subst h
      exact absurd h1 h0
    | timerFire j =>
      cases ht : s.timers[j]? with
      | none =>
        rw [step_timerFire_none s j hl ht] at hstep
        injection hstep with h
        subst h
        exact absurd h1 h0
      | some t =>
        by_cases hdue : t.fireAt ≤ s.now
        · rw [step_timerFire_due s j t hl ht hdue] at hstep
          injection hstep with h
          subst h
          exact absurd h1 h0
        · rw [step_timerFire_early s j t hl ht hdue] at hstep
          injection hstep with h
          subst h
          exact absurd h1 h0
    | setHref i h =>
      rw [step_setHref s i h hl] at hstep
      injection hstep with hh
      subst hh
      exact absurd h1 h0

theorem marker_cleared_only_by_load (s s1 : Sys) (e : Event)
    (hstep : step s e = .ok s1) (h1 : markerOn s) (h0 : ¬ markerOn s1) :
    e = Event.load := by
  by_cases hls : s.location.isSome = true
  · rw [step_frozen s e hls] at hstep
    injection hstep with h
    subst h
    exact absurd h1 h0
  · have hl : s.location = none := Option.not_isSome_iff_eq_none.mp hls
    cases e with
    | click i =>
      exfalso
      by_cases hmem : i ∈ s.attached
      · rw [step_click_attached s i hl hmem] at hstep
        cases hhr : (s.doc.anchors[i]?).bind Anchor.href with
        | none =>
          rw [clickHandler_noHref s i hhr] at hstep
          simp at hstep
        | some hh =>
          by_cases hint : isInternal hh = true
          · cases hov : s.doc.overlay with
            | none =>
              rw [clickHandler_missing s i hh hhr hint hov] at hstep
              simp at hstep
            | some cls =>
              rw [clickHandler_internal s i hh cls hhr hint hov] at hstep
              simp at hstep
              subst hstep
              exact h0 (mem_classListAdd_self cls activeStr)
          · have hint2 : isInternal hh = false := by
              simp at hint
              exact hint
            rw [clickHandler_external s i hh hhr hint2] at hstep
            simp at hstep
            subst hstep
            exact h0 h1
      · rw [step_click_not_attached s i hl hmem] at hstep
        injection hstep with h
        subst h
        exact h0 h1
    | load => rfl
    | tick d =>
      exfalso
      rw [step_tick s d hl] at hstep
      injection hstep with h
      subst h
      exact h0 h1
    | timerFire j =>
      exfalso
      cases ht : s.timers[j]? with
      | none =>
        rw [step_timerFire_none s j hl ht] at hstep
        injection hstep with h
        subst h
        exact h0 h1
      | some t =>
        by_cases hdue : t.fireAt ≤ s.now
        · rw [step_timerFire_due s j t hl ht hdue] at hstep
          injection hstep with h
          subst h
          exact h0 h1
        · rw [step_timerFire_early s j t hl ht hdue] at hstep
          injection hstep with h
          subst h
          exact h0 h1
    | setHref i h =>
      exfalso
      rw [step_setHref s i h hl] at hstep
      injection hstep with hh
      subst hh
      exact h0 h1

theorem run_cons_ok (s0 s1 : Sys) (e : Event) (es : List Event)
    (hrun : run s0 (e :: es) = .ok s1) :
    ∃ sM, step s0 e = .ok sM ∧ run sM es = .ok s1 := by
  unfold run at hrun
  cases hst : step s0 e with
  | ok sM =>
    rw [hst] at hrun
    exact ⟨sM, rfl, hrun⟩
  | error err =>
    rw [hst] at hrun
    simp at hrun

/-- While the page is still live, the overlay carries the marker only if some
qualifying click happened and no `load` event happened after it. -/
theorem run_marker_decomposition (tr : List Event) :
    ∀ s0 s1, run s0 tr = .ok s1 → s1.location = none → markerOn s1 →
      (markerOn s0 ∧ Event.load ∉ tr) ∨
      (∃ t1 i t2 sA, tr = t1 ++ Event.click i :: t2 ∧ run s0 t1 = .ok sA ∧
        isQualifyingClick sA (Event.click i) ∧ Event.load ∉ t2) := by
  induction tr with
  | nil =>
    intro s0 s1 hrun hloc hm
    injection hrun with h
    subst h
    exact Or.inl ⟨hm, by simp⟩
  | cons e es ih =>
    intro s0 s1 hrun hloc hm
    obtain ⟨sM, hst, hrunM⟩ := run_cons_ok s0 s1 e es hrun
    have hlM : sM.location = none := run_location_none sM s1 es hrunM hloc
    have hl0 : s0.location = none := run_location_none s0 s1 (e :: es) hrun hloc
    rcases ih sM s1 hrunM hloc hm with ⟨hmM, hnl⟩ | ⟨t1, i, t2, sA, heq, hrunA, hq, hnl2⟩
    · by_cases hm0 : markerOn s0
      · left
        refine ⟨hm0, ?_⟩
        intro hmemtr
        rcases List.mem_cons.mp hmemtr with he | he
        · subst he
          rw [step_load s0 hl0] at hst
          cases hov : s0.doc.overlay with
          | none =>
            rw [loadHandler_missing s0 hov] at hst
            simp at hst
          | some cls =>
            rw [loadHandler_ok s0 cls hov] at hst
            injection hst with h
            subst h
            exact absurd hmM (not_mem_classListRemove cls activeStr)
        · exact hnl he
      · obtain ⟨_, hqc⟩ := marker_set_only_by_click s0 sM e hst hm0 hmM
        obtain ⟨i, hh, heqe, hmem, hhr, hint⟩ := hqc
        subst heqe
        exact Or.inr ⟨[], i, es, s0, rfl, rfl, ⟨i, hh, rfl, hmem, hhr, hint⟩, hnl⟩
    · right
      refine ⟨e :: t1, i, t2, sA, ?_, ?_, hq, hnl2⟩
      · rw [heq]
        rfl
      · unfold run
        rw [hst]
        exact hrunA

theorem step_click_ready (s : Sys) (i : Nat) (h : Str) (cls : List Str)
    (hhr : (s.doc.anchors[i]?).bind Anchor.href = some h)
    (hint : isInternal h = true) (hov : s.doc.overlay = some cls)
    (hl : s.location = none) (hmem : i ∈ s.attached) :
    step s (.click i) = .ok
      { s with
          doc := { s.doc with overlay := some (classListAdd cls activeStr) },
          timers := s.timers ++ [{ fireAt := s.now + 500, navHref := h }] } := by
  rw [step_click_attached s i hl hmem, clickHandler_internal s i h cls hhr hint hov]

theorem step_load_ok (s : Sys) (cls : List Str)
    (hov : s.doc.overlay = some cls) (hl : s.location = none) :
    step s .load = .ok
      { s with doc := { s.doc with overlay := some (classListRemove cls activeStr) } } := by
  rw [step_load s hl, loadHandler_ok s cls hov]

theorem run_clicks_marker (n : Nat) :
    ∀ (s : Sys) (i : Nat) (h : Str) (cls : List Str),
      (s.doc.anchors[i]?).bind Anchor.href = some h →
      isInternal h = true → s.doc.overlay = some cls → s.location = none →
      i ∈ s.attached → markerOn s →
      ∃ s1, run s (List.replicate n (Event.click i)) = .ok s1 ∧ markerOn s1 := by
  induction n with
  | zero =>
    intro s i h cls _ _ _ _ _ hm
    exact ⟨s, rfl, hm⟩
  | succ m ih =>
    intro s i h cls hhr hint hov hl hmem hm
    have hstep := step_click_ready s i h cls hhr hint hov hl hmem
    obtain ⟨s1, hr, hm1⟩ :=
      ih { s with
            doc := { s.doc with overlay := some (classListAdd cls activeStr) },
            timers := s.timers ++ [{ fireAt := s.now + 500, navHref := h }] }
        i h (classListAdd cls activeStr) hhr hint rfl hl hmem
        (mem_classListAdd_self cls activeStr)
    refine ⟨s1, ?_, hm1⟩
    rw [List.replicate_succ]
    unfold run
    rw [hstep]
    exact hr

theorem run_loads_marker_off (m : Nat) :
    ∀ (s : Sys) (cls : List Str), s.doc.overlay = some cls → s.location = none →
      ¬ markerOn s →
      ∃ s1, run s (List.replicate m Event.load) = .ok s1 ∧ ¬ markerOn s1 := by
  induction m with
  | zero =>
    intro s cls _ _ hm
    exact ⟨s, rfl, hm⟩
  | succ k ih =>
    intro s cls hov hl hm
    have hstep := step_load_ok s cls hov hl
    obtain ⟨s1, hr, hm1⟩ :=
      ih { s with doc := { s.doc with overlay := some (classListRemove cls activeStr) } }
        (classListRemove cls activeStr) rfl hl
        (not_mem_classListRemove cls activeStr)
    refine ⟨s1, ?_, hm1⟩
    rw [List.replicate_succ]
    unfold run
    rw [hstep]
    exact hr

theorem run_clicks_timers (n : Nat) :
    ∀ (s : Sys) (i : Nat) (h : Str) (cls : List Str),
      (s.doc.anchors[i]?).bind Anchor.href = some h →
      isInternal h = true → s.doc.overlay = some cls → s.location = none →
      i ∈ s.attached →
      ∃ s1, run s (List.replicate n (Event.click i)) = .ok s1 ∧
        ∃ ts, s1.timers = s.timers ++ ts ∧ ts.length = n := by
  induction n with
  | zero =>
    intro s i h cls _ _ _ _ _
    exact ⟨s, rfl, [], by simp, rfl⟩
  | succ m ih =>
    intro s i h cls hhr hint hov hl hmem
    have hstep := step_click_ready s i h cls hhr hint hov hl hmem
    obtain ⟨s1, hr, ts, hts, hlen⟩ :=
      ih { s with
            doc := { s.doc with overlay := some (classListAdd cls activeStr) },
            timers := s.timers ++ [{ fireAt := s.now + 500, navHref := h }] }
        i h (classListAdd cls activeStr) hhr hint rfl hl hmem
    refine ⟨s1, ?_, { fireAt := s.now + 500, navHref := h } :: ts, ?_, by simp [hlen]⟩
    · rw [List.replicate_succ]
      unfold run
      rw [hstep]
      exact hr
    · rw [hts]
      simp

theorem getElem_append_singleton {α : Type} (l : List α) (x : α) :
    (l ++ [x])[l.length]? = some x := by
  induction l with
  | nil => rfl
  | cons y ys ih => simp [ih]

theorem getElem_setAnchorHref (l : List Anchor) (i : Nat) (h : Str) (a : Anchor)
    (ha : l[i]? = some a) :
    (setAnchorHref l i h)[i]? = some { a with href := some h } := by
  induction l generalizing i with
  | nil => simp at ha
  | cons x xs ih =>
    cases i with
    | zero =>
      simp at ha
      subst ha
      simp [setAnchorHref]
    | succ n =>
      simp only [List.getElem?_cons_succ] at ha
      simpa [setAnchorHref] using ih n ha

/-! ## Claims -/

/-- C1: clicking an anchor whose click-time `href` does not begin with
`http` calls `preventDefault` (the returned flag is `true`), synchronously
adds the `active` marker to the overlay, and appends exactly one one-shot
timer whose target is exactly that href and whose due time is 500 ms from
now: before 500 ms have elapsed the timer's callback does not navigate,
and once 500 ms have elapsed it navigates to exactly that href. -/
theorem C1_internal_click_intercepts (s : Sys) (i : Nat) (h : Str) (cls : List Str)
    (hhr : (s.doc.anchors[i]?).bind Anchor.href = some h)
    (hext : strStartsWith h httpStr = false)
    (hov : s.doc.overlay = some cls)
    (hl : s.location = none) :
    ∃ s1,
      clickHandler s i = .ok (s1, true) ∧
      markerOn s1 ∧
      s1.timers = s.timers ++ [{ fireAt := s.now + 500, navHref := h }] ∧
      s1.location = none ∧
      (∀ d, d < 500 → ∃ s2, step s1 (.tick d) = .ok s2 ∧ s2.location = none ∧
          step s2 (.timerFire s.timers.length) = .ok s2) ∧
      (∀ d, 500 ≤ d → ∃ s2, step s1 (.tick d) = .ok s2 ∧
          step s2 (.timerFire s.timers.length) = .ok { s2 with location := some h }) := by
  have hint : isInternal h = true := by
    rw [isInternal_eq_spec]
    unfold specIsInternal
    rw [hext]
    rfl
  refine ⟨{ s with
      doc := { s.doc with overlay := some (classListAdd cls activeStr) },
      timers := s.timers ++ [{ fireAt := s.now + 500, navHref := h }] },
    clickHandler_internal s i h cls hhr hint hov,
    mem_classListAdd_self cls activeStr, rfl, hl, ?_, ?_⟩
  · intro d hd
    refine ⟨{ s with
        now := s.now + d,
        doc := { s.doc with overlay := some (classListAdd cls activeStr) },
        timers := s.timers ++ [{ fireAt := s.now + 500, navHref := h }] },
      step_tick _ d hl, hl, ?_⟩
    exact step_timerFire_early _ _ { fireAt := s.now + 500, navHref := h } hl
      (getElem_append_singleton s.timers _)
      (by show ¬ s.now + 500 ≤ s.now + d; omega)
  · intro d hd
    refine ⟨{ s with
        now := s.now + d,
        doc := { s.doc with overlay := some (classListAdd cls activeStr) },
        timers := s.timers ++ [{ fireAt := s.now + 500, navHref := h }] },
      step_tick _ d hl, ?_⟩
    exact step_timerFire_due _ _ { fireAt := s.now + 500, navHref := h } hl
      (getElem_append_singleton s.timers _)
      (by show s.now + 500 ≤ s.now + d; omega)

/-- C1 witness: a page with an empty-class overlay and one anchor with
href `/`, clicked at index 0. -/
theorem C1_internal_click_intercepts_witness :
    ∃ s1,
      clickHandler
        { now := 0,
          doc := { overlay := some [],
                   anchors := [{ href := some ['/'], target := none }] },
          attached := [0], timers := [], location := none } 0 = .ok (s1, true) ∧
      markerOn s1 ∧
      s1.timers = [{ fireAt := 500, navHref := ['/'] }] ∧
      s1.location = none ∧
      (∀ d, d < 500 → ∃ s2, step s1 (.tick d) = .ok s2 ∧ s2.location = none ∧
          step s2 (.timerFire 0) = .ok s2) ∧
      (∀ d, 500 ≤ d → ∃ s2, step s1 (.tick d) = .ok s2 ∧
          step s2 (.timerFire 0) = .ok { s2 with location := some ['/'] }) :=
  C1_internal_click_intercepts
    { now := 0,
      doc := { overlay := some [],
               anchors := [{ href := some ['/'], target := none }] },
      attached := [0], timers := [], location := none }
    0 ['/'] [] (by decide) (by decide) rfl rfl

/-- C2: an anchor whose click-time `href` begins with `http` is not
intercepted (the handler returns the state unchanged, with `preventDefault`
not invoked, so no marker is added and no timer is scheduled); an anchor
whose `target` attribute is `_blank` is never matched by the selector at
initialization, whatever its `href`; and a click on an anchor without the
handler runs no controller code at all. -/
theorem C2_external_or_blank_no_interception :
    (∀ (s : Sys) (i : Nat) (h : Str),
        (s.doc.anchors[i]?).bind Anchor.href = some h →
        strStartsWith h httpStr = true →
        clickHandler s i = .ok (s, false)) ∧
    (∀ (l : List Anchor) (i : Nat) (a : Anchor),
        l[i]? = some a → a.target = some blankStr → i ∉ initAttached l) ∧
    (∀ (s : Sys) (i : Nat), i ∉ s.attached → s.location = none →
        step s (.click i) = .ok s) := by
  refine ⟨?_, ?_, ?_⟩
  · intro s i h hhr hhttp
    have hint : isInternal h = false := by
      rw [isInternal_eq_spec]
      unfold specIsInternal
      rw [hhttp]
      rfl
    exact clickHandler_external s i h hhr hint
  · intro l i a ha htar hmem
    unfold initAttached at hmem
    obtain ⟨-, hp⟩ := List.mem_filter.mp hmem
    rw [ha] at hp
    simp [selectsLink, htar] at hp
  · intro s i hna hl
    exact step_click_not_attached s i hl hna

/-- C2 witness: an `http://` anchor is clicked with no effect, a `_blank`
anchor is not attached, and a click on an unattached index is a no-op. -/
theorem C2_external_or_blank_no_interception_witness :
    (clickHandler
        { now := 0,
          doc := { overlay := some [],
                   anchors := [{ href := some ['h','t','t','p',':','/','/','x'],
                                 target := none }] },
          attached := [0], timers := [], location := none } 0 =
      .ok ({ now := 0,
             doc := { overlay := some [],
                      anchors := [{ href := some ['h','t','t','p',':','/','/','x'],
                                    target := none }] },
             attached := [0], timers := [], location := none }, false)) ∧
    (0 ∉ initAttached [{ href := some ['/'], target := some blankStr }]) ∧
    (step { now := 0, doc := { overlay := some [], anchors := [] },
            attached := [], timers := [], location := none } (.click 3) =
      .ok { now := 0, doc := { overlay := some [], anchors := [] },
            attached := [], timers := [], location := none }) :=
  ⟨C2_external_or_blank_no_interception.1 _ 0 ['h','t','t','p',':','/','/','x']
      (by decide) (by decide),
   C2_external_or_blank_no_interception.2.1 _ 0
      { href := some ['/'], target := some blankStr } (by decide) rfl,
   C2_external_or_blank_no_interception.2.2 _ 3 (by decide) rfl⟩

/-- C3: whenever the `load` handler runs on a page whose overlay element is
present, the overlay ends without the `active` marker, whatever class list
(marker present or not) it had before. -/
theorem C3_load_unconditionally_clears (s : Sys) (cls : List Str)
    (hov : s.doc.overlay = some cls) :
    ∃ s1, loadHandler s = .ok s1 ∧
      s1.doc.overlay = some (classListRemove cls activeStr) ∧
      ¬ markerOn s1 := by
  refine ⟨_, loadHandler_ok s cls hov, rfl, ?_⟩
  exact not_mem_classListRemove cls activeStr

/-- C3 witness: the overlay starts with the marker present and the `load`
handler removes it. -/
theorem C3_load_unconditionally_clears_witness :
    ∃ s1, loadHandler
        { now := 0, doc := { overlay := some [activeStr], anchors := [] },
          attached := [], timers := [], location := none } = .ok s1 ∧
      s1.doc.overlay = some (classListRemove [activeStr] activeStr) ∧
      ¬ markerOn s1 :=
  C3_load_unconditionally_clears
    { now := 0, doc := { overlay := some [activeStr], anchors := [] },
      attached := [], timers := [], location := none } [activeStr] rfl

/-- C4: for every href string the four-clause classifier of line 10 computes
the same Boolean as its last clause alone — `startsWith '/'`,
`startsWith './'` and `startsWith '../'` are subsumed by
`!startsWith 'http'`. -/
theorem C4_classifier_redundant (h : Str) :
    isInternal h = specIsInternal h :=
  isInternal_eq_spec h

/-- C6: when the overlay element is absent from the page, the overlay-state
operations fail with the missing-element error: a qualifying click's
handler raises it, and so does the `load` handler.  No branch of either
handler recovers. -/
theorem C6_missing_overlay_fatal (s : Sys) (i : Nat) (h : Str)
    (hov : s.doc.overlay = none)
    (hhr : (s.doc.anchors[i]?).bind Anchor.href = some h)
    (hint : isInternal h = true) :
    clickHandler s i = .error .missingElement ∧
    loadHandler s = .error .missingElement :=
  ⟨clickHandler_missing s i h hhr hint hov, loadHandler_missing s hov⟩

/-- C6 witness: a page without the overlay element; clicking its internal
anchor and firing `load` both raise the missing-element error. -/
theorem C6_missing_overlay_fatal_witness :
    clickHandler
        { now := 0,
          doc := { overlay := none,
                   anchors := [{ href := some ['/'], target := none }] },
          attached := [0], timers := [], location := none } 0 =
      .error .missingElement ∧
    loadHandler
        { now := 0,
          doc := { overlay := none,
                   anchors := [{ href := some ['/'], target := none }] },
          attached := [0], timers := [], location := none } =
      .error .missingElement :=
  C6_missing_overlay_fatal _ 0 ['/'] rfl (by decide) (by decide)

/-- C5: on a live page the overlay carries the `active` marker only inside
the window opened by a qualifying click: the only step that turns the
marker on is a qualifying click on a live page, the only step that turns it
off is the `load` event, and any live state with the marker on was reached
through a trace containing a qualifying click with no `load` after it
(a fired timer commits navigation and ends the live states). -/
theorem C5_marker_interval :
    (∀ (s s1 : Sys) (e : Event), step s e = .ok s1 → ¬ markerOn s → markerOn s1 →
        s.location = none ∧ isQualifyingClick s e) ∧
    (∀ (s s1 : Sys) (e : Event), step s e = .ok s1 → markerOn s → ¬ markerOn s1 →
        e = Event.load) ∧
    (∀ (tr : List Event) (s0 s1 : Sys), run s0 tr = .ok s1 → s1.location = none →
        markerOn s1 →
        (markerOn s0 ∧ Event.load ∉ tr) ∨
        (∃ t1 i t2 sA, tr = t1 ++ Event.click i :: t2 ∧ run s0 t1 = .ok sA ∧
          isQualifyingClick sA (Event.click i) ∧ Event.load ∉ t2)) :=
  ⟨marker_set_only_by_click, marker_cleared_only_by_load,
   fun tr => run_marker_decomposition tr⟩

/-- C5 witness: after one qualifying click on a fresh page the marker is on,
and the trace decomposes around that click. -/
theorem C5_marker_interval_witness :
    (markerOn (initSys oneSlashDoc) ∧ Event.load ∉ [Event.click 0]) ∨
    (∃ t1 i t2 sA, [Event.click 0] = t1 ++ Event.click i :: t2 ∧
      run (initSys oneSlashDoc) t1 = .ok sA ∧
      isQualifyingClick sA (Event.click i) ∧ Event.load ∉ t2) :=
  C5_marker_interval.2.2 [Event.click 0] (initSys oneSlashDoc)
    { now := 0,
      doc := { overlay := some [activeStr],
               anchors := [{ href := some ['/'], target := none }] },
      attached := [0], timers := [{ fireAt := 500, navHref := ['/'] }],
      location := none }
    rfl rfl (by decide)

/-- C7: with the overlay present on a live page, repeated handler runs never
raise: any positive number of qualifying clicks in a row succeeds and leaves
the marker present (no scheduled navigation having fired in between), and
any positive number of `load` events in a row succeeds and leaves the marker
absent. -/
theorem C7_repeated_events_idempotent (s : Sys) (i : Nat) (h : Str) (cls : List Str)
    (hhr : (s.doc.anchors[i]?).bind Anchor.href = some h)
    (hint : isInternal h = true) (hov : s.doc.overlay = some cls)
    (hl : s.location = none) (hmem : i ∈ s.attached) :
    (∀ n : Nat, ∃ s1, run s (List.replicate (n + 1) (Event.click i)) = .ok s1 ∧
        markerOn s1) ∧
    (∀ m : Nat, ∃ s1, run s (List.replicate (m + 1) Event.load) = .ok s1 ∧
        ¬ markerOn s1) := by
  constructor
  · intro n
    have hstep := step_click_ready s i h cls hhr hint hov hl hmem
    obtain ⟨s1, hr, hm⟩ := run_clicks_marker n
      { s with doc := { s.doc with overlay := some (classListAdd cls activeStr) },
               timers := s.timers ++ [{ fireAt := s.now + 500, navHref := h }] }
      i h (classListAdd cls activeStr) hhr hint rfl hl hmem
      (mem_classListAdd_self cls activeStr)
    refine ⟨s1, ?_, hm⟩
    rw [List.replicate_succ]
    unfold run
    rw [hstep]
    exact hr
  · intro m
    have hstep := step_load_ok s cls hov hl
    obtain ⟨s1, hr, hm⟩ := run_loads_marker_off m
      { s with doc := { s.doc with overlay := some (classListRemove cls activeStr) } }
      (classListRemove cls activeStr) rfl hl (not_mem_classListRemove cls activeStr)
    refine ⟨s1, ?_, hm⟩
    rw [List.replicate_succ]
    unfold run
    rw [hstep]
    exact hr

/-- C7 witness: a fresh page with one internal anchor; repeated clicks keep
the marker on, repeated loads keep it off. -/
theorem C7_repeated_events_idempotent_witness :
    (∀ n : Nat, ∃ s1, run (initSys oneSlashDoc)
        (List.replicate (n + 1) (Event.click 0)) = .ok s1 ∧ markerOn s1) ∧
    (∀ m : Nat, ∃ s1, run (initSys oneSlashDoc)
        (List.replicate (m + 1) Event.load) = .ok s1 ∧ ¬ markerOn s1) :=
  C7_repeated_events_idempotent (initSys oneSlashDoc)
    0 ['/'] [] (by decide) (by decide) rfl rfl (by decide)

/-- C8: each qualifying click appends exactly one one-shot timer to the
pending list, and n qualifying clicks in a row append exactly n timers,
with the previously pending ones left in place — none is cancelled. -/
theorem C8_one_timer_per_click (s : Sys) (i : Nat) (h : Str) (cls : List Str)
    (hhr : (s.doc.anchors[i]?).bind Anchor.href = some h)
    (hint : isInternal h = true) (hov : s.doc.overlay = some cls)
    (hl : s.location = none) (hmem : i ∈ s.attached) :
    (∃ s1, step s (.click i) = .ok s1 ∧
        s1.timers = s.timers ++ [{ fireAt := s.now + 500, navHref := h }]) ∧
    (∀ n : Nat, ∃ s1, run s (List.replicate n (Event.click i)) = .ok s1 ∧
        ∃ ts, s1.timers = s.timers ++ ts ∧ ts.length = n) := by
  constructor
  · exact ⟨_, step_click_ready s i h cls hhr hint hov hl hmem, rfl⟩
  · intro n
    exact run_clicks_timers n s i h cls hhr hint hov hl hmem

/-- C8 witness: a fresh page with one internal anchor exercises both the
single-click and the n-click timer counting. -/
theorem C8_one_timer_per_click_witness :
    (∃ s1, step (initSys oneSlashDoc) (.click 0) = .ok s1 ∧
      s1.timers = (initSys oneSlashDoc).timers ++
        [{ fireAt := (initSys oneSlashDoc).now + 500, navHref := ['/'] }]) ∧
    (∀ n : Nat, ∃ s1, run (initSys oneSlashDoc)
        (List.replicate n (Event.click 0)) = .ok s1 ∧
      ∃ ts, s1.timers = (initSys oneSlashDoc).timers ++ ts ∧ ts.length = n) :=
  C8_one_timer_per_click (initSys oneSlashDoc)
    0 ['/'] [] (by decide) (by decide) rfl rfl (by decide)

/-- C9: the handlers mutate nothing in the document beyond the `active`
marker on the overlay: whenever the click handler or the load handler
returns, the anchors are untouched, the overlay element is neither created
nor removed, and every class other than `active` keeps its membership in
the overlay's class list. -/
theorem C9_only_marker_mutated (s : Sys) (i : Nat) :
    (∀ (s1 : Sys) (b : Bool), clickHandler s i = .ok (s1, b) →
        s1.doc.anchors = s.doc.anchors ∧
        s1.doc.overlay.isSome = s.doc.overlay.isSome ∧
        (∀ c : Str, c ≠ activeStr →
          (c ∈ s1.doc.overlay.getD [] ↔ c ∈ s.doc.overlay.getD []))) ∧
    (∀ s1 : Sys, loadHandler s = .ok s1 →
        s1.doc.anchors = s.doc.anchors ∧
        s1.doc.overlay.isSome = s.doc.overlay.isSome ∧
        (∀ c : Str, c ≠ activeStr →
          (c ∈ s1.doc.overlay.getD [] ↔ c ∈ s.doc.overlay.getD []))) := by
  constructor
  · intro s1 b hch
    cases hhr : (s.doc.anchors[i]?).bind Anchor.href with
    | none =>
      rw [clickHandler_noHref s i hhr] at hch
      simp at hch
    | some hh =>
      by_cases hint : isInternal hh = true
      · cases hov : s.doc.overlay with
        | none =>
          rw [clickHandler_missing s i hh hhr hint hov] at hch
          simp at hch
        | some cls =>
          rw [clickHandler_internal s i hh cls hhr hint hov] at hch
          injection hch with hp
          injection hp with hs hb
          subst hs
          refine ⟨rfl, rfl, ?_⟩
          intro c hc
          exact mem_classListAdd_iff cls activeStr c hc
      · have hint2 : isInternal hh = false := by
          simp at hint
          exact hint
        rw [clickHandler_external s i hh hhr hint2] at hch
        injection hch with hp
        injection hp with hs hb
        subst hs
        exact ⟨rfl, rfl, fun _ _ => Iff.rfl⟩
  · intro s1 hld
    cases hov : s.doc.overlay with
    | none =>
      rw [loadHandler_missing s hov] at hld
      simp at hld
    | some cls =>
      rw [loadHandler_ok s cls hov] at hld
      injection hld with hs
      subst hs
      refine ⟨rfl, rfl, ?_⟩
      intro c hc
      exact mem_classListRemove_iff cls activeStr c hc

/-- C9 witness: the state produced by clicking the internal anchor of the
fresh one-anchor page keeps its anchors, its overlay element, and every
non-marker class membership. -/
theorem C9_only_marker_mutated_witness :
    ({ now := 0,
       doc := { overlay := some [activeStr],
                anchors := [{ href := some ['/'], target := none }] },
       attached := [0], timers := [{ fireAt := 500, navHref := ['/'] }],
       location := none } : Sys).doc.anchors =
        (initSys oneSlashDoc).doc.anchors ∧
    ({ now := 0,
       doc := { overlay := some [activeStr],
                anchors := [{ href := some ['/'], target := none }] },
       attached := [0], timers := [{ fireAt := 500, navHref := ['/'] }],
       location := none } : Sys).doc.overlay.isSome =
        (initSys oneSlashDoc).doc.overlay.isSome ∧
    (∀ c : Str, c ≠ activeStr →
      (c ∈ ({ now := 0,
              doc := { overlay := some [activeStr],
                       anchors := [{ href := some ['/'], target := none }] },
              attached := [0], timers := [{ fireAt := 500, navHref := ['/'] }],
              location := none } : Sys).doc.overlay.getD [] ↔
        c ∈ (initSys oneSlashDoc).doc.overlay.getD [])) :=
  (C9_only_marker_mutated (initSys oneSlashDoc) 0).1
    { now := 0,
      doc := { overlay := some [activeStr],
               anchors := [{ href := some ['/'], target := none }] },
      attached := [0], timers := [{ fireAt := 500, navHref := ['/'] }],
      location := none }
    true rfl

/-- C10: the href a click uses — both for the internal/external decision and
as the scheduled navigation target — is the anchor's `href` attribute read
at click time.  Whatever href the anchor carried when the handler was
attached, after the attribute is rewritten a click classifies by the new
value and, when it intercepts, schedules navigation to exactly that new
value. -/
theorem C10_click_time_snapshot (s : Sys) (i : Nat) (a : Anchor) (hnew : Str)
    (cls : List Str)
    (ha : s.doc.anchors[i]? = some a)
    (hov : s.doc.overlay = some cls) (hl : s.location = none)
    (hmem : i ∈ s.attached) :
    ∃ s1, step s (.setHref i hnew) = .ok s1 ∧
      (s1.doc.anchors[i]?).bind Anchor.href = some hnew ∧
      (isInternal hnew = true →
        ∃ s2, step s1 (.click i) = .ok s2 ∧ markerOn s2 ∧
          s2.timers = s1.timers ++ [{ fireAt := s1.now + 500, navHref := hnew }]) ∧
      (isInternal hnew = false → step s1 (.click i) = .ok s1) := by
  have hhr1 : ((setAnchorHref s.doc.anchors i hnew)[i]?).bind Anchor.href = some hnew := by
    rw [getElem_setAnchorHref s.doc.anchors i hnew a ha]
    rfl
  refine ⟨{ s with doc := { s.doc with anchors := setAnchorHref s.doc.anchors i hnew } },
    step_setHref s i hnew hl, hhr1, ?_, ?_⟩
  · intro hint
    exact ⟨_,
      step_click_ready _ i hnew cls hhr1 hint hov hl hmem,
      mem_classListAdd_self cls activeStr, rfl⟩
  · intro hint2
    rw [step_click_attached
          { s with doc := { s.doc with anchors := setAnchorHref s.doc.anchors i hnew } }
          i hl hmem,
        clickHandler_external
          { s with doc := { s.doc with anchors := setAnchorHref s.doc.anchors i hnew } }
          i hnew hhr1 hint2]

/-- C10 witness: an anchor attached while its href was `http://x` is
rewritten to `/n` before the click; the click then intercepts and targets
`/n`, the click-time snapshot. -/
theorem C10_click_time_snapshot_witness :
    ∃ s1,
      step
        (initSys
          { overlay := some [],
            anchors := [{ href := some ['h','t','t','p',':','/','/','x'],
                          target := none }] })
        (.setHref 0 ['/','n']) = .ok s1 ∧
      (s1.doc.anchors[0]?).bind Anchor.href = some ['/','n'] ∧
      (isInternal ['/','n'] = true →
        ∃ s2, step s1 (.click 0) = .ok s2 ∧ markerOn s2 ∧
          s2.timers = s1.timers ++
            [{ fireAt := s1.now + 500, navHref := ['/','n'] }]) ∧
      (isInternal ['/','n'] = false → step s1 (.click 0) = .ok s1) :=
  C10_click_time_snapshot
    (initSys
      { overlay := some [],
        anchors := [{ href := some ['h','t','t','p',':','/','/','x'],
                      target := none }] })
    0 { href := some ['h','t','t','p',':','/','/','x'], target := none }
    ['/','n'] [] rfl rfl rfl (by decide)
